import Mathlib

/-!
Verification development for the upp syntax-aware macro preprocessor.

The repository ships the standard macro library (src/std/defer.h,
src/std/method.h, ...), examples and recorded outputs; the expansion engine
itself is not part of the source tree.  Macro bodies are therefore embedded
faithfully from their JavaScript source, while the engine services they call
(the upp runtime API, the edit reconciler, the phase driver) are modelled
from the specification, each such definition carrying a doc comment starting
with "Modelled from the spec".

Strings are represented as lists of characters; buffers, node texts and
replacement texts are all of type Str.
-/

set_option maxRecDepth 20000

namespace Upp

/-- Character-list strings: the buffer representation of the model. -/
abbrev Str := List Char

/-- Coerce a Lean string literal to the model representation. -/
def str (s : String) : Str := s.data

/-- Substring test: does the pattern occur contiguously in the haystack? -/
def containsSub (hay pat : Str) : Bool :=
  match hay with
  | [] => pat.isEmpty
  | _ :: cs => pat.isPrefixOf hay || containsSub cs pat

/-- Whitespace trim at both ends, the model of the script trim(). -/
def trimChars (s : Str) : Str :=
  ((s.dropWhile Char.isWhitespace).reverse.dropWhile Char.isWhitespace).reverse

/-- Remove the first occurrence of a pattern, the model of the script
replace(pat, "") with a plain-string pattern. -/
def removeFirstSub (pat : Str) : Str → Str
  | [] => []
  | c :: cs => if pat.isPrefixOf (c :: cs) then (c :: cs).drop pat.length
               else c :: removeFirstSub pat cs

/-- Remove every occurrence of a pattern, the model of the script
replace(/pat/g, ""); the first argument is recursion fuel. -/
def removeSubAll (pat : Str) : Nat → Str → Str
  | 0, s => s
  | _ + 1, [] => []
  | fuel + 1, c :: cs =>
      if pat.isPrefixOf (c :: cs) then removeSubAll pat fuel ((c :: cs).drop pat.length)
      else c :: removeSubAll pat fuel cs

/-- Concatenation of a list of strings, in list order. -/
def cat (l : List Str) : Str := l.foldr (· ++ ·) []

/-- The substring of a buffer between two byte offsets. -/
def sub (buf : Str) (a b : Nat) : Str := (buf.drop a).take (b - a)

/-! ## Edits and the reconciler

Modelled from the spec (§3 "Edit", §4.3 "Edit buffer and reconciliation"):
the engine is not under src/.  An edit is (start, end, replacementText,
ordinal); edits are applied in one atomic pass: replacements are sorted and
checked for overlap, insertions are dropped when strictly inside a replaced
range and otherwise queued before the first replacement whose start is not
below their point, ties among insertions broken by submission ordinal. -/

/-- Modelled from the spec (§3): record (start, end, replacementText, ordinal). -/
structure Edit where
  start : Nat
  stop : Nat
  text : Str
  ord : Nat
deriving DecidableEq, Repr

/-- Insertions (start = stop) sort before replacements at the same point. -/
def editKind (e : Edit) : Nat := if e.start < e.stop then 1 else 0

/-- Application order of two edits: ascending start, insertions before
replacements at the same start, then submission ordinal. -/
def editLE (a b : Edit) : Bool :=
  decide (a.start < b.start) ||
    (decide (a.start = b.start) &&
      (decide (editKind a < editKind b) ||
        (decide (editKind a = editKind b) && decide (a.ord ≤ b.ord))))

/-- Insertion sort step for edits. -/
def insEdit (e : Edit) : List Edit → List Edit
  | [] => [e]
  | f :: fs => if editLE e f then e :: f :: fs else f :: insEdit e fs

/-- Sort edits into application order. -/
def sortEdits : List Edit → List Edit
  | [] => []
  | e :: es => insEdit e (sortEdits es)

/-- Modelled from the spec (§3 invariant 2): two edits conflict iff their
half-open ranges overlap and at least one is non-empty. -/
def overlapB (a b : Edit) : Bool :=
  decide (a.start < b.stop) && decide (b.start < a.stop) &&
    (decide (a.start < a.stop) || decide (b.start < b.stop))

/-- Pairwise conflict test over a list of replacements. -/
def hasConflict : List Edit → Bool
  | [] => false
  | e :: es => es.any (overlapB e) || hasConflict es

/-- Is the point strictly inside one of the replaced ranges? -/
def insideRepl (repls : List Edit) (p : Nat) : Bool :=
  repls.any (fun r => decide (r.start < p) && decide (p < r.stop))

/-- Emit pass over sorted, non-overlapping edits: unchanged prefix, then the
replacement text, advancing past the edited range. -/
def applySorted (buf : Str) : Nat → List Edit → Str
  | pos, [] => buf.drop pos
  | pos, e :: es => (buf.drop pos).take (e.start - pos) ++ e.text ++ applySorted buf e.stop es

/-- Modelled from the spec (§4.3): the atomic edit application pass.
Replacements are overlap-checked (a conflict aborts the phase), insertions
strictly inside a replaced range are dropped, the rest are spliced in
application order. -/
def applyEdits (buf : Str) (edits : List Edit) : Except Str Str :=
  let repls := edits.filter (fun e => decide (e.start < e.stop))
  if hasConflict repls then .error (str "edit-conflict")
  else
    let ins := edits.filter (fun e => decide (e.start = e.stop) && !(insideRepl repls e.start))
    .ok (applySorted buf 0 (sortEdits (ins ++ repls)))

/-! ## CST nodes

Modelled from the spec (§3 "CST node"): read-only references to the latest
parse with a type, a byte range, a parent link, an optional field name under
the parent, and a stable id.  The model stores a parse as a flat list of
nodes in preorder (ascending start, outer nodes before inner ones); a node's
text is the corresponding substring of the buffer. -/

/-- Modelled from the spec (§3): a CST node of the current parse. -/
structure Node where
  nid : Nat
  ntype : Str
  nstart : Nat
  nstop : Nat
  nparent : Option Nat
  nfield : Option Str
  named : Bool
deriving DecidableEq, Repr

/-- The text of a node: the substring of the buffer it spans. -/
def nodeText (buf : Str) (n : Node) : Str := sub buf n.nstart n.nstop

/-- All children of a node, in parse (document) order. -/
def childrenOf (cst : List Node) (n : Node) : List Node :=
  cst.filter (fun c => c.nparent = some n.nid)

/-- The named children of a node (anonymous tokens excluded). -/
def namedChildrenOf (cst : List Node) (n : Node) : List Node :=
  (childrenOf cst n).filter (fun c => c.named)

/-- childForFieldName: the child stored under a labeled field. -/
def childForFieldName (cst : List Node) (n : Node) (f : Str) : Option Node :=
  (childrenOf cst n).find? (fun c => c.nfield = some f)

/-- child(i): the i-th child in document order, anonymous tokens included. -/
def childAt (cst : List Node) (n : Node) (i : Nat) : Option Node :=
  (childrenOf cst n).get? i

/-- The parent node, resolved through the stored parent id. -/
def parentOf (cst : List Node) (n : Node) : Option Node :=
  n.nparent.bind (fun i => cst.find? (fun m => m.nid = i))

/-- The chain of ancestors from the nearest outward (fuel-bounded). -/
def ancestors (cst : List Node) : Nat → Node → List Node
  | 0, _ => []
  | fuel + 1, n =>
      match parentOf cst n with
      | none => []
      | some p => p :: ancestors cst fuel p

/-- Modelled from the spec (§4.2): isDescendant is range containment. -/
def isDescendant (anc n : Node) : Bool :=
  decide (anc.nstart ≤ n.nstart) && decide (n.nstop ≤ anc.nstop)

/-- Modelled from the spec (§4.2 walk): the depth-first traversal of a
subtree visits exactly the stored nodes whose range the root contains, in
preorder (the stored list order). -/
def walkNodes (cst : List Node) (scope : Node) : List Node :=
  cst.filter (fun n => isDescendant scope n)

/-- Modelled from the spec (§4.2 findEnclosing): nearest ancestor of the
node whose type matches. -/
def findEnclosing (cst : List Node) : Nat → Node → Str → Option Node
  | 0, _, _ => none
  | fuel + 1, n, t =>
      match parentOf cst n with
      | none => none
      | some p => if p.ntype = t then some p else findEnclosing cst fuel p t

/-! ## Invocations and consume -/

/-- Modelled from the spec (§3 "Macro invocation"): the byte range of the
recognized annotation and the id of the node whose statement list holds it. -/
structure Invocation where
  istart : Nat
  istop : Nat
  iparent : Option Nat
deriving DecidableEq, Repr

/-- The sibling nodes that start after the invocation, in document order. -/
def nodesAfter (cst : List Node) (inv : Invocation) : List Node :=
  cst.filter (fun n => n.nparent = inv.iparent && decide (inv.istop ≤ n.nstart))

/-- Modelled from the spec (§4.2 consume): the accepted types, a validate
predicate, and an optional custom diagnostic message. -/
structure ConsumeOpts where
  ctypes : List Str
  validate : Node → Bool
  message : Option Str

/-- The default consume diagnostic kind (spec §6). -/
def defaultMismatch : Str := str "consume-type-mismatch"

/-- Modelled from the spec (§4.2 consume): claim the next non-comment node
after the invocation when its type matches and the validate predicate holds;
otherwise fail with the consume-type-mismatch diagnostic, using the custom
message when one is provided. -/
def consumeWith (cst : List Node) (inv : Invocation) (o : ConsumeOpts) : Except Str Node :=
  match (nodesAfter cst inv).find? (fun n => !(n.ntype = str "comment")) with
  | none => .error (o.message.getD defaultMismatch)
  | some n =>
      if o.ctypes.contains n.ntype && o.validate n then .ok n
      else .error (o.message.getD defaultMismatch)

/-! ## Applying one invocation

Modelled from the spec (§4.2, §4.3, §7): a macro evaluation yields edits, a
list of consumed nodes and a return text; the engine submits the consumed
ranges as empty replacements, then the macro edits, then the replacement of
the invocation range by the return text, and applies them atomically.  An
errored invocation contributes no edits and records one positional
diagnostic; any error-severity diagnostic makes the run exit non-zero. -/

/-- The outcome of evaluating one macro body. -/
structure MacroOut where
  edits : List Edit
  consumed : List Node
  ret : Str
deriving Repr

/-- Renumber submission ordinals in list order. -/
def withOrds (es : List Edit) : List Edit :=
  es.enum.map (fun p => { p.2 with ord := p.1 })

/-- Modelled from the spec (§4.3): apply one invocation outcome to the
buffer — consumed ranges deleted, macro edits submitted, invocation range
replaced by the return text. -/
def applyInvocationResult (buf : Str) (inv : Invocation) (r : Except Str MacroOut) :
    Except Str Str :=
  match r with
  | .error m => .error m
  | .ok o =>
      let dels := o.consumed.map (fun n => (⟨n.nstart, n.nstop, [], 0⟩ : Edit))
      let invEdit : Edit := ⟨inv.istart, inv.istop, o.ret, 0⟩
      applyEdits buf (withOrds (dels ++ o.edits ++ [invEdit]))

/-- Modelled from the spec (§7.3): an errored invocation contributes no edits. -/
def invocationEdits (r : Except Str MacroOut) : List Edit :=
  match r with
  | .error _ => []
  | .ok o => o.edits

/-- Modelled from the spec (§6, §7.3): an errored invocation records one
diagnostic at the invocation site. -/
def invocationDiags (inv : Invocation) (r : Except Str MacroOut) : List (Nat × Str) :=
  match r with
  | .error m => [(inv.istart, m)]
  | .ok _ => []

/-- Modelled from the spec (§6 exit codes): 0 on success, non-zero when any
error diagnostic was recorded. -/
def exitCode (diags : List (Nat × Str)) : Nat :=
  if diags.isEmpty then 0 else 1

/-! ## The defer macro

Embedding of src/std/defer.h.  The body consumes a compound statement,
finds the enclosing compound statement, rejects any break/continue/goto in
that scope, inserts the consumed block text (plus one space) before every
return statement starting after the consumed block, inserts it before the
closing brace when the scope's last named child is not a return statement,
and returns the empty string. -/

/-- The consume options of the defer body: upp.consume of a compound
statement with no custom options. -/
def deferOpts : ConsumeOpts := ⟨[str "compound_statement"], fun _ => true, none⟩

/-- The flow-control statement types defer forbids in its scope. -/
def forbiddenB (n : Node) : Bool :=
  [str "break_statement", str "continue_statement", str "goto_statement"].contains n.ntype

/-- Embedding of the defer macro body (src/std/defer.h lines 4-32). -/
def defer (cst : List Node) (buf : Str) (inv : Invocation) : Except Str MacroOut :=
  match consumeWith cst inv deferOpts with
  | .error m => .error m
  | .ok node =>
      match findEnclosing cst cst.length node (str "compound_statement") with
      | none => .ok ⟨[], [node], []⟩
      | some scope =>
          match (walkNodes cst scope).find? forbiddenB with
          | some n =>
              .error (str "@defer cannot be used in a scope containing " ++
                removeFirstSub (str "_statement") n.ntype)
          | none =>
              let blockText := nodeText buf node
              let retEdits := (walkNodes cst scope).filterMap (fun n =>
                if n.ntype = str "return_statement" && decide (node.nstart < n.nstart)
                then some (⟨n.nstart, n.nstart, blockText ++ str " ", 0⟩ : Edit)
                else none)
              let braceEdits :=
                match (namedChildrenOf cst scope).getLast? with
                | some l =>
                    if !(l.ntype = str "return_statement")
                    then [(⟨scope.nstop - 1, scope.nstop - 1, blockText ++ str " ", 0⟩ : Edit)]
                    else []
                | none => []
              .ok ⟨retEdits ++ braceEdits, [node], []⟩

/-- Expansion of one defer invocation: evaluate the body and apply its
outcome to the buffer. -/
def runDefer (cst : List Node) (buf : Str) (inv : Invocation) : Except Str Str :=
  applyInvocationResult buf inv (defer cst buf inv)

/-! ## Defer scenarios

Scenario B is the spec §8.2 scoped-defer program, extended with a nested
conditional return so that the "every subsequent return" part of the claim
is exercised; scenario C ends its scope with a non-return statement to
exercise the closing-brace branch; scenario D places the invocation in a
loop body that also contains a break; scenario E places a break inside a
while loop lexically before the invocation.  Node lists mirror the
tree-sitter C parse of the buffers. -/

/-- Scenario B buffer. -/
def bufB : Str :=
  str "int main() \x7b char *s = malloc(1); @defer \x7b free(s); \x7d if (c) \x7b return 1; \x7d return 0; \x7d"

/-- Scenario B parse. -/
def cstB : List Node := [
  ⟨0, str "translation_unit", 0, 86, none, none, true⟩,
  ⟨1, str "function_definition", 0, 86, some 0, none, true⟩,
  ⟨2, str "primitive_type", 0, 3, some 1, some (str "type"), true⟩,
  ⟨3, str "function_declarator", 4, 10, some 1, some (str "declarator"), true⟩,
  ⟨4, str "identifier", 4, 8, some 3, some (str "declarator"), true⟩,
  ⟨5, str "parameter_list", 8, 10, some 3, some (str "parameters"), true⟩,
  ⟨6, str "compound_statement", 11, 86, some 1, some (str "body"), true⟩,
  ⟨7, str "declaration", 13, 33, some 6, none, true⟩,
  ⟨8, str "primitive_type", 13, 17, some 7, some (str "type"), true⟩,
  ⟨9, str "init_declarator", 18, 32, some 7, some (str "declarator"), true⟩,
  ⟨10, str "pointer_declarator", 18, 20, some 9, some (str "declarator"), true⟩,
  ⟨11, str "identifier", 19, 20, some 10, some (str "declarator"), true⟩,
  ⟨12, str "call_expression", 23, 32, some 9, some (str "value"), true⟩,
  ⟨13, str "compound_statement", 41, 53, some 6, none, true⟩,
  ⟨14, str "expression_statement", 43, 51, some 13, none, true⟩,
  ⟨15, str "call_expression", 43, 50, some 14, none, true⟩,
  ⟨16, str "identifier", 43, 47, some 15, some (str "function"), true⟩,
  ⟨17, str "argument_list", 47, 50, some 15, some (str "arguments"), true⟩,
  ⟨18, str "identifier", 48, 49, some 17, none, true⟩,
  ⟨19, str "if_statement", 54, 74, some 6, none, true⟩,
  ⟨20, str "parenthesized_expression", 57, 60, some 19, some (str "condition"), true⟩,
  ⟨21, str "identifier", 58, 59, some 20, none, true⟩,
  ⟨22, str "compound_statement", 61, 74, some 19, some (str "consequence"), true⟩,
  ⟨23, str "return_statement", 63, 72, some 22, none, true⟩,
  ⟨24, str "return_statement", 75, 84, some 6, none, true⟩]

/-- Scenario B invocation: the token at bytes [34,40) inside the body. -/
def invB : Invocation := ⟨34, 40, some 6⟩

/-- Scenario B expected output. -/
def outB : Str :=
  str "int main() \x7b char *s = malloc(1);   if (c) \x7b \x7b free(s); \x7d return 1; \x7d \x7b free(s); \x7d return 0; \x7d"

/-- Scenario C buffer. -/
def bufC : Str := str "void f() \x7b int x; @defer \x7b g(); \x7d h(); \x7d"

/-- Scenario C parse. -/
def cstC : List Node := [
  ⟨0, str "translation_unit", 0, 40, none, none, true⟩,
  ⟨1, str "function_definition", 0, 40, some 0, none, true⟩,
  ⟨2, str "primitive_type", 0, 4, some 1, some (str "type"), true⟩,
  ⟨3, str "function_declarator", 5, 8, some 1, some (str "declarator"), true⟩,
  ⟨4, str "identifier", 5, 6, some 3, some (str "declarator"), true⟩,
  ⟨5, str "parameter_list", 6, 8, some 3, some (str "parameters"), true⟩,
  ⟨6, str "compound_statement", 9, 40, some 1, some (str "body"), true⟩,
  ⟨7, str "declaration", 11, 17, some 6, none, true⟩,
  ⟨8, str "primitive_type", 11, 14, some 7, some (str "type"), true⟩,
  ⟨9, str "identifier", 15, 16, some 7, some (str "declarator"), true⟩,
  ⟨10, str "compound_statement", 25, 33, some 6, none, true⟩,
  ⟨11, str "expression_statement", 27, 31, some 10, none, true⟩,
  ⟨12, str "call_expression", 27, 30, some 11, none, true⟩,
  ⟨13, str "identifier", 27, 28, some 12, some (str "function"), true⟩,
  ⟨14, str "argument_list", 28, 30, some 12, some (str "arguments"), true⟩,
  ⟨15, str "expression_statement", 34, 38, some 6, none, true⟩,
  ⟨16, str "call_expression", 34, 37, some 15, none, true⟩,
  ⟨17, str "identifier", 34, 35, some 16, some (str "function"), true⟩,
  ⟨18, str "argument_list", 35, 37, some 16, some (str "arguments"), true⟩]

/-- Scenario C invocation: bytes [18,24). -/
def invC : Invocation := ⟨18, 24, some 6⟩

/-- Scenario C expected output. -/
def outC : Str := str "void f() \x7b int x;   h(); \x7b g(); \x7d \x7d"

/-- Scenario D buffer: the defer invocation and a break share the loop body. -/
def bufD : Str := str "void f() \x7b while (1) \x7b @defer \x7b g(); \x7d break; \x7d \x7d"

/-- Scenario D parse. -/
def cstD : List Node := [
  ⟨0, str "translation_unit", 0, 49, none, none, true⟩,
  ⟨1, str "function_definition", 0, 49, some 0, none, true⟩,
  ⟨2, str "primitive_type", 0, 4, some 1, some (str "type"), true⟩,
  ⟨3, str "function_declarator", 5, 8, some 1, some (str "declarator"), true⟩,
  ⟨4, str "identifier", 5, 6, some 3, some (str "declarator"), true⟩,
  ⟨5, str "parameter_list", 6, 8, some 3, some (str "parameters"), true⟩,
  ⟨6, str "compound_statement", 9, 49, some 1, some (str "body"), true⟩,
  ⟨7, str "while_statement", 11, 47, some 6, none, true⟩,
  ⟨8, str "parenthesized_expression", 17, 20, some 7, some (str "condition"), true⟩,
  ⟨9, str "number_literal", 18, 19, some 8, none, true⟩,
  ⟨10, str "compound_statement", 21, 47, some 7, some (str "body"), true⟩,
  ⟨11, str "compound_statement", 30, 38, some 10, none, true⟩,
  ⟨12, str "expression_statement", 32, 36, some 11, none, true⟩,
  ⟨13, str "call_expression", 32, 35, some 12, none, true⟩,
  ⟨14, str "identifier", 32, 33, some 13, some (str "function"), true⟩,
  ⟨15, str "argument_list", 33, 35, some 13, some (str "arguments"), true⟩,
  ⟨16, str "break_statement", 39, 45, some 10, none, true⟩]

/-- Scenario D invocation: bytes [23,29) inside the loop body. -/
def invD : Invocation := ⟨23, 29, some 10⟩

/-- Scenario E buffer: a break inside a nested while loop, lexically before
the defer invocation. -/
def bufE : Str := str "void f() \x7b while (1) \x7b break; \x7d @defer \x7b g(); \x7d \x7d"

/-- Scenario E parse. -/
def cstE : List Node := [
  ⟨0, str "translation_unit", 0, 49, none, none, true⟩,
  ⟨1, str "function_definition", 0, 49, some 0, none, true⟩,
  ⟨2, str "primitive_type", 0, 4, some 1, some (str "type"), true⟩,
  ⟨3, str "function_declarator", 5, 8, some 1, some (str "declarator"), true⟩,
  ⟨4, str "identifier", 5, 6, some 3, some (str "declarator"), true⟩,
  ⟨5, str "parameter_list", 6, 8, some 3, some (str "parameters"), true⟩,
  ⟨6, str "compound_statement", 9, 49, some 1, some (str "body"), true⟩,
  ⟨7, str "while_statement", 11, 31, some 6, none, true⟩,
  ⟨8, str "parenthesized_expression", 17, 20, some 7, some (str "condition"), true⟩,
  ⟨9, str "number_literal", 18, 19, some 8, none, true⟩,
  ⟨10, str "compound_statement", 21, 31, some 7, some (str "body"), true⟩,
  ⟨11, str "break_statement", 23, 29, some 10, none, true⟩,
  ⟨12, str "compound_statement", 39, 47, some 6, none, true⟩,
  ⟨13, str "expression_statement", 41, 45, some 12, none, true⟩,
  ⟨14, str "call_expression", 41, 44, some 13, none, true⟩,
  ⟨15, str "identifier", 41, 42, some 14, some (str "function"), true⟩,
  ⟨16, str "argument_list", 42, 44, some 14, some (str "arguments"), true⟩]

/-- Scenario E invocation: bytes [32,38). -/
def invE : Invocation := ⟨32, 38, some 6⟩

/-! ## Semantic services

Modelled from the spec (§4.5): a lightweight, intentionally approximate
identifier resolver over the CST.  Definition nodes are identifier tokens
introducing a name under a declarator field; resolution walks enclosing
scope-bearing ancestors looking for a definition with the same spelling;
reference enumeration collects identifier tokens with the spelling of the
definition; type extraction ascends the declarator wrappers collecting
pointer suffixes and reads the containing declaration's type field, with a
"void *" fallback for unrecognized structure. -/

/-- Modelled from the spec (§4.5): scope-bearing node types. -/
def scopeTypes : List Str :=
  [str "compound_statement", str "function_definition", str "translation_unit",
   str "field_declaration_list"]

/-- Modelled from the spec (§4.5): an identifier token that introduces a
name — it sits under a declarator field of its parent. -/
def isDefinitionNode (n : Node) : Bool :=
  (n.nfield = some (str "declarator")) &&
    ((n.ntype = str "identifier") || (n.ntype = str "field_identifier") ||
      (n.ntype = str "type_identifier"))

/-- Modelled from the spec (§4.5 resolution): walk ancestor scopes from the
nearest outward; in each, the first definition with the reference's
spelling wins; null when no scope defines the name. -/
def getDefinition (cst : List Node) (buf : Str) (ref : Node) : Option Node :=
  ((ancestors cst cst.length ref).filter (fun a => scopeTypes.contains a.ntype)).findSome?
    (fun scope => (walkNodes cst scope).find?
      (fun d => isDefinitionNode d && nodeText buf d = nodeText buf ref && !(d = ref)))

/-- Modelled from the spec (§4.5 references): the identifier tokens of the
translation unit that carry the definition's spelling. -/
def findReferences (cst : List Node) (buf : Str) (defNode : Node) : List Node :=
  cst.filter (fun n =>
    ((n.ntype = str "identifier") || (n.ntype = str "field_identifier")) &&
      nodeText buf n = nodeText buf defNode)

/-- Modelled from the spec (§4.5 type extraction): declarator wrapper kinds
that are climbed without contributing to the type text. -/
def neutralDeclarators : List Str :=
  [str "init_declarator", str "array_declarator", str "function_declarator"]

/-- Modelled from the spec (§4.5 type extraction): declaration kinds whose
type field is read. -/
def declarationKinds : List Str :=
  [str "declaration", str "parameter_declaration", str "field_declaration"]

/-- Modelled from the spec (§4.5 type extraction): qualifier kinds prefixed
onto the extracted type. -/
def typeQualKinds : List Str :=
  [str "type_qualifier", str "storage_class_specifier"]

/-- Modelled from the spec (§4.5 type extraction): ascend from a definition
identifier collecting pointer suffixes, then read the containing
declaration's type field and qualifier prefixes; fall back to "void *". -/
def getTypeAux (cst : List Node) (buf : Str) : Nat → Node → Str → Str
  | 0, _, _ => str "void *"
  | fuel + 1, cur, suffix =>
      match parentOf cst cur with
      | none => str "void *"
      | some p =>
          if p.ntype = str "pointer_declarator" then
            getTypeAux cst buf fuel p (suffix ++ str "*")
          else if neutralDeclarators.contains p.ntype then
            getTypeAux cst buf fuel p suffix
          else if declarationKinds.contains p.ntype then
            match childForFieldName cst p (str "type") with
            | some t =>
                let quals := (namedChildrenOf cst p).filter
                  (fun c => typeQualKinds.contains c.ntype)
                cat (quals.map (fun q => nodeText buf q ++ str " ")) ++ nodeText buf t ++
                  (if suffix.isEmpty then [] else str " " ++ suffix)
            | none => str "void *"
          else str "void *"

/-- The textual type of a definition node (spec §4.5 getType). -/
def getType (cst : List Node) (buf : Str) (d : Node) : Str :=
  getTypeAux cst buf cst.length d []

/-! ## The method macro

Embedding of src/std/method.h.  The body takes the context function
definition, unwraps pointer declarators to its defining identifier, renames
it to _T_method_f with a leading "struct " stripped from the target type,
and rewrites each same-spelling reference that heads a field-expression
call: when the object's definition resolves and its cleaned type equals the
cleaned target the call is rewritten, and when the definition cannot be
resolved the call is rewritten by name alone. -/

/-- The target-type cleanup of method.h lines 21-24: trim and strip a
leading "struct ". -/
def cleanupTarget (t : Str) : Str :=
  let c := trimChars t
  if (str "struct ").isPrefixOf c then trimChars (c.drop 7) else c

/-- The pointer-declarator unwrap loop of method.h lines 10-13. -/
def unwrapPointerDecls (cst : List Node) : Nat → Option Node → Option Node
  | _, none => none
  | 0, some d => some d
  | fuel + 1, some d =>
      if d.ntype = str "pointer_declarator" then
        unwrapPointerDecls cst fuel (childForFieldName cst d (str "declarator"))
      else some d

/-- The defining identifier of the context function definition
(method.h lines 7-15). -/
def methodFuncIdentifier (cst : List Node) (ctx : Node) : Option Node :=
  (unwrapPointerDecls cst cst.length (childForFieldName cst ctx (str "declarator"))).bind
    (fun d => childForFieldName cst d (str "declarator"))

/-- The object-type cleanup of method.h line 51: remove every star, remove
every "struct ", trim. -/
def cleanObjTypeOf (objType : Str) : Str :=
  trimChars (removeSubAll (str "struct ") objType.length (objType.filter (fun c => !(c = '*'))))

/-- The renamed function name of method.h line 27. -/
def methodNewName (cleanTarget originalName : Str) : Str :=
  str "_" ++ cleanTarget ++ str "_method_" ++ originalName

/-- The rewritten call text of method.h lines 54-58 and 63-66: the object
reference is address-taken for the dot operator and passed unchanged for
the arrow, prepended to the original argument list. -/
def methodCallText (buf : Str) (newName : Str) (objectNode argsNode opNode : Node) : Str :=
  let objText := nodeText buf objectNode
  let argsList := ((nodeText buf argsNode).drop 1).dropLast
  let objRef := if nodeText buf opNode = str "." then
      str "&(" ++ objText ++ str ")" else objText
  let finalArgs := objRef ++
    (if (trimChars argsList).isEmpty then [] else str ", " ++ argsList)
  newName ++ str "(" ++ finalArgs ++ str ")"

/-- The per-reference call rewrite of method.h lines 34-70: a reference
heading a field-expression call is rewritten when the object's cleaned type
matches the cleaned target, or — fallback — when its definition cannot be
resolved. -/
def mkCallEdit (cst : List Node) (buf : Str) (cleanTarget newName : Str)
    (funcIdentifier ref : Node) : Option Edit :=
  if ref = funcIdentifier then none else
  match parentOf cst ref with
  | none => none
  | some fnNode =>
      if fnNode.ntype = str "field_expression" then
        match parentOf cst fnNode with
        | none => none
        | some callNode =>
            if callNode.ntype = str "call_expression" then
              match childForFieldName cst fnNode (str "argument"),
                  childForFieldName cst callNode (str "arguments"),
                  childAt cst fnNode 1 with
              | some objectNode, some argsNode, some opNode =>
                  let replText := methodCallText buf newName objectNode argsNode opNode
                  match getDefinition cst buf objectNode with
                  | some objDef =>
                      if cleanObjTypeOf (getType cst buf objDef) = cleanTarget then
                        some ⟨callNode.nstart, callNode.nstop, replText, 0⟩
                      else none
                  | none => some ⟨callNode.nstart, callNode.nstop, replText, 0⟩
              | _, _, _ => none
            else none
      else none

/-- Embedding of the method macro body (src/std/method.h lines 4-71). -/
def method (cst : List Node) (buf : Str) (targetType : Str) (ctx : Node) : MacroOut :=
  match methodFuncIdentifier cst ctx with
  | none => ⟨[], [], []⟩
  | some funcIdentifier =>
      let originalName := nodeText buf funcIdentifier
      let cleanTarget := cleanupTarget targetType
      let newName := methodNewName cleanTarget originalName
      let renameEdit : Edit := ⟨funcIdentifier.nstart, funcIdentifier.nstop, newName, 0⟩
      let callEdits := (findReferences cst buf funcIdentifier).filterMap
        (mkCallEdit cst buf cleanTarget newName funcIdentifier)
      ⟨renameEdit :: callEdits, [], []⟩

/-- Expansion of one method invocation: evaluate the body on its context
node and apply the outcome (the body returns no text). -/
def runMethod (cst : List Node) (buf : Str) (targetType : Str) (ctx : Node)
    (inv : Invocation) : Except Str Str :=
  applyInvocationResult buf inv (.ok (method cst buf targetType ctx))

/-! ## Method scenarios

Scenario A is the spec §8.1 method-dispatch program, extended with an
arrow-operator call so both rewrite shapes appear; scenario F calls the
method on an object with no resolvable definition.  Node lists mirror the
tree-sitter C parse of the buffers. -/

/-- Scenario A buffer. -/
def bufA : Str :=
  str "struct Point \x7b int x,y; \x7d; @method(Point) int dist(Point *p)\x7b return p->x; \x7d int main()\x7b Point p; Point *pp; return p.dist() + pp->dist(); \x7d"

/-- Scenario A parse. -/
def cstA : List Node := [
  ⟨0, str "translation_unit", 0, 140, none, none, true⟩,
  ⟨1, str "struct_specifier", 0, 25, some 0, none, true⟩,
  ⟨2, str "type_identifier", 7, 12, some 1, some (str "name"), true⟩,
  ⟨3, str "function_definition", 42, 76, some 0, none, true⟩,
  ⟨4, str "primitive_type", 42, 45, some 3, some (str "type"), true⟩,
  ⟨5, str "function_declarator", 46, 60, some 3, some (str "declarator"), true⟩,
  ⟨6, str "identifier", 46, 50, some 5, some (str "declarator"), true⟩,
  ⟨7, str "parameter_list", 50, 60, some 5, some (str "parameters"), true⟩,
  ⟨8, str "parameter_declaration", 51, 59, some 7, none, true⟩,
  ⟨9, str "type_identifier", 51, 56, some 8, some (str "type"), true⟩,
  ⟨10, str "pointer_declarator", 57, 59, some 8, some (str "declarator"), true⟩,
  ⟨11, str "identifier", 58, 59, some 10, some (str "declarator"), true⟩,
  ⟨12, str "compound_statement", 60, 76, some 3, some (str "body"), true⟩,
  ⟨13, str "return_statement", 62, 74, some 12, none, true⟩,
  ⟨14, str "field_expression", 69, 73, some 13, none, true⟩,
  ⟨15, str "identifier", 69, 70, some 14, some (str "argument"), true⟩,
  ⟨16, str "->", 70, 72, some 14, none, false⟩,
  ⟨17, str "field_identifier", 72, 73, some 14, some (str "field"), true⟩,
  ⟨18, str "function_definition", 77, 140, some 0, none, true⟩,
  ⟨19, str "primitive_type", 77, 80, some 18, some (str "type"), true⟩,
  ⟨20, str "function_declarator", 81, 87, some 18, some (str "declarator"), true⟩,
  ⟨21, str "identifier", 81, 85, some 20, some (str "declarator"), true⟩,
  ⟨22, str "parameter_list", 85, 87, some 20, some (str "parameters"), true⟩,
  ⟨23, str "compound_statement", 87, 140, some 18, some (str "body"), true⟩,
  ⟨24, str "declaration", 89, 97, some 23, none, true⟩,
  ⟨25, str "type_identifier", 89, 94, some 24, some (str "type"), true⟩,
  ⟨26, str "identifier", 95, 96, some 24, some (str "declarator"), true⟩,
  ⟨27, str "declaration", 98, 108, some 23, none, true⟩,
  ⟨28, str "type_identifier", 98, 103, some 27, some (str "type"), true⟩,
  ⟨29, str "pointer_declarator", 104, 107, some 27, some (str "declarator"), true⟩,
  ⟨30, str "identifier", 105, 107, some 29, some (str "declarator"), true⟩,
  ⟨31, str "return_statement", 109, 138, some 23, none, true⟩,
  ⟨32, str "binary_expression", 116, 137, some 31, none, true⟩,
  ⟨33, str "call_expression", 116, 124, some 32, some (str "left"), true⟩,
  ⟨34, str "field_expression", 116, 122, some 33, some (str "function"), true⟩,
  ⟨35, str "identifier", 116, 117, some 34, some (str "argument"), true⟩,
  ⟨36, str ".", 117, 118, some 34, none, false⟩,
  ⟨37, str "field_identifier", 118, 122, some 34, some (str "field"), true⟩,
  ⟨38, str "argument_list", 122, 124, some 33, some (str "arguments"), true⟩,
  ⟨39, str "call_expression", 127, 137, some 32, some (str "right"), true⟩,
  ⟨40, str "field_expression", 127, 135, some 39, some (str "function"), true⟩,
  ⟨41, str "identifier", 127, 129, some 40, some (str "argument"), true⟩,
  ⟨42, str "->", 129, 131, some 40, none, false⟩,
  ⟨43, str "field_identifier", 131, 135, some 40, some (str "field"), true⟩,
  ⟨44, str "argument_list", 135, 137, some 39, some (str "arguments"), true⟩]

/-- Scenario A invocation: bytes [27,41), bound to the following function
definition (node 3) per the context rule of spec §9. -/
def invA : Invocation := ⟨27, 41, some 0⟩

/-- Scenario A context node: the function definition following the
invocation. -/
def ctxA : Node := ⟨3, str "function_definition", 42, 76, some 0, none, true⟩

/-- Scenario A expected output. -/
def outA : Str :=
  str "struct Point \x7b int x,y; \x7d;  int _Point_method_dist(Point *p)\x7b return p->x; \x7d int main()\x7b Point p; Point *pp; return _Point_method_dist(&(p)) + _Point_method_dist(pp); \x7d"

/-- Scenario F buffer: the called object q has no definition anywhere. -/
def bufF : Str :=
  str "@method(Point) int dist(Point *p)\x7b return 0; \x7d int h()\x7b return q.dist(); \x7d"

/-- Scenario F parse. -/
def cstF : List Node := [
  ⟨0, str "translation_unit", 0, 74, none, none, true⟩,
  ⟨1, str "function_definition", 15, 46, some 0, none, true⟩,
  ⟨2, str "primitive_type", 15, 18, some 1, some (str "type"), true⟩,
  ⟨3, str "function_declarator", 19, 33, some 1, some (str "declarator"), true⟩,
  ⟨4, str "identifier", 19, 23, some 3, some (str "declarator"), true⟩,
  ⟨5, str "parameter_list", 23, 33, some 3, some (str "parameters"), true⟩,
  ⟨6, str "parameter_declaration", 24, 32, some 5, none, true⟩,
  ⟨7, str "type_identifier", 24, 29, some 6, some (str "type"), true⟩,
  ⟨8, str "pointer_declarator", 30, 32, some 6, some (str "declarator"), true⟩,
  ⟨9, str "identifier", 31, 32, some 8, some (str "declarator"), true⟩,
  ⟨10, str "compound_statement", 33, 46, some 1, some (str "body"), true⟩,
  ⟨11, str "return_statement", 35, 44, some 10, none, true⟩,
  ⟨12, str "number_literal", 42, 43, some 11, none, true⟩,
  ⟨13, str "function_definition", 47, 74, some 0, none, true⟩,
  ⟨14, str "primitive_type", 47, 50, some 13, some (str "type"), true⟩,
  ⟨15, str "function_declarator", 51, 54, some 13, some (str "declarator"), true⟩,
  ⟨16, str "identifier", 51, 52, some 15, some (str "declarator"), true⟩,
  ⟨17, str "parameter_list", 52, 54, some 15, some (str "parameters"), true⟩,
  ⟨18, str "compound_statement", 54, 74, some 13, some (str "body"), true⟩,
  ⟨19, str "return_statement", 56, 72, some 18, none, true⟩,
  ⟨20, str "call_expression", 63, 71, some 19, none, true⟩,
  ⟨21, str "field_expression", 63, 69, some 20, some (str "function"), true⟩,
  ⟨22, str "identifier", 63, 64, some 21, some (str "argument"), true⟩,
  ⟨23, str ".", 64, 65, some 21, none, false⟩,
  ⟨24, str "field_identifier", 65, 69, some 21, some (str "field"), true⟩,
  ⟨25, str "argument_list", 69, 71, some 20, some (str "arguments"), true⟩]

/-- Scenario F context node: the function definition following the
invocation. -/
def ctxF : Node := ⟨1, str "function_definition", 15, 46, some 0, none, true⟩

/-! ## Consuming macro bodies -/

/-- Modelled from the spec (§4.2): a macro body that begins with a consume
call; when the consume fails the body fails with its diagnostic and the
continuation never runs. -/
def runConsumingInvocation (cst : List Node) (inv : Invocation) (o : ConsumeOpts)
    (k : Node → Except Str MacroOut) : Except Str MacroOut :=
  match consumeWith cst inv o with
  | .error m => .error m
  | .ok n => k n

/-- Scenario G buffer: the node after the invocation is an expression
statement that fails the validate predicate of the consume options. -/
def bufG : Str := str "int main() \x7b @test_validate x = 1; return 0; \x7d"

/-- Scenario G parse. -/
def cstG : List Node := [
  ⟨0, str "translation_unit", 0, 46, none, none, true⟩,
  ⟨1, str "function_definition", 0, 46, some 0, none, true⟩,
  ⟨2, str "primitive_type", 0, 3, some 1, some (str "type"), true⟩,
  ⟨3, str "function_declarator", 4, 10, some 1, some (str "declarator"), true⟩,
  ⟨4, str "identifier", 4, 8, some 3, some (str "declarator"), true⟩,
  ⟨5, str "parameter_list", 8, 10, some 3, some (str "parameters"), true⟩,
  ⟨6, str "compound_statement", 11, 46, some 1, some (str "body"), true⟩,
  ⟨7, str "expression_statement", 28, 34, some 6, none, true⟩,
  ⟨8, str "assignment_expression", 28, 33, some 7, none, true⟩,
  ⟨9, str "identifier", 28, 29, some 8, some (str "left"), true⟩,
  ⟨10, str "number_literal", 32, 33, some 8, some (str "right"), true⟩,
  ⟨11, str "return_statement", 35, 44, some 6, none, true⟩]

/-- Scenario G invocation: bytes [13,27). -/
def invG : Invocation := ⟨13, 27, some 6⟩

/-- Scenario G consume options, mirroring the test_validate example:
expression_statement type, a validate predicate requiring the text VALID,
and a custom message. -/
def optsG : ConsumeOpts :=
  ⟨[str "expression_statement"],
   fun n => containsSub (nodeText bufG n) (str "VALID"),
   some (str "@test_validate requires an expression containing \"VALID\"")⟩

/-! ## Unique identifiers

Modelled from the spec (§4.2 createUniqueIdentifier, §3 invariant 6, §8):
the engine is not under src/.  A per-run counter produces names of the form
prefix_k; candidates already present among the source identifiers or
already issued in the run are skipped, so a returned name is globally
fresh and the numeric suffixes increase monotonically. -/

/-- Decimal digit characters. -/
def digitChar : Nat → Char
  | 0 => '0'
  | 1 => '1'
  | 2 => '2'
  | 3 => '3'
  | 4 => '4'
  | 5 => '5'
  | 6 => '6'
  | 7 => '7'
  | 8 => '8'
  | _ => '9'

/-- Decimal digits of a number, most significant first (fuel-bounded). -/
def natStrAux : Nat → Nat → Str
  | 0, _ => []
  | fuel + 1, n =>
      if n < 10 then [digitChar n]
      else natStrAux fuel (n / 10) ++ [digitChar (n % 10)]

/-- Decimal rendering of a number. -/
def natStr (n : Nat) : Str := natStrAux (n + 1) n

/-- The numeric value of a digit character. -/
def digitVal (c : Char) : Nat := c.toNat - 48

/-- The numeric value of a digit string. -/
def listVal (l : Str) : Nat := l.foldl (fun a c => 10 * a + digitVal c) 0

/-- The candidate name for a prefix and a counter value. -/
def candidate (p : Str) (k : Nat) : Str := p ++ str "_" ++ natStr k

/-- The first counter value at or after k whose candidate is not in the
avoid list (fuel-bounded search). -/
def freshIndex (avoid : List Str) (p : Str) : Nat → Nat → Nat
  | 0, k => k
  | fuel + 1, k => if candidate p k ∈ avoid then freshIndex avoid p fuel (k + 1) else k

/-- The per-run unique-identifier state: the counter and the names already
issued during the run. -/
structure UidState where
  counter : Nat
  issued : List Str
deriving DecidableEq, Repr

/-- Modelled from the spec (§4.2): createUniqueIdentifier(prefix) — a fresh
name prefixed and monotonically suffixed, skipping names present among the
source identifiers or previously returned in the run. -/
def createUniqueIdentifier (sourceIdents : List Str) (p : Str) (st : UidState) :
    Str × UidState :=
  let avoid := sourceIdents ++ st.issued
  let k := freshIndex avoid p (avoid.length + 1) st.counter
  (candidate p k, ⟨k + 1, candidate p k :: st.issued⟩)

/-! ## The hoist buffer

Modelled from the spec (§4.4): the engine is not under src/.  Hoists are
inserted as a single pure insertion at the maximal end of the longest run
of leading comment or preprocessor children of the root, the collected
strings concatenated in submission order with a leading newline. -/

/-- A top-level construct of the translation unit. -/
structure TopNode where
  ttype : Str
  tstart : Nat
  tstop : Nat
deriving DecidableEq, Repr

/-- Is a top-level construct part of the leading preamble (a comment or a
preprocessor directive)? -/
def isPreamble (t : TopNode) : Bool :=
  t.ttype = str "comment" || (str "preproc").isPrefixOf t.ttype

/-- The running maximal end of the leading preamble run. -/
def hoistOffsetAux : List TopNode → Nat → Nat
  | [], acc => acc
  | t :: ts, acc => if isPreamble t then hoistOffsetAux ts t.tstop else acc

/-- Modelled from the spec (§4.4): the hoist insertion offset — maxEnd of
the longest contiguous run of leading comment/preprocessor children. -/
def hoistOffset (tops : List TopNode) : Nat := hoistOffsetAux tops 0

/-- Modelled from the spec (§4.4): the hoist strings concatenated in
submission order with a leading newline separator. -/
def hoistText (hs : List Str) : Str := str "\n" ++ cat hs

/-- Modelled from the spec (§4.4): apply the collected hoists as one pure
insertion at the hoist offset. -/
def applyHoists (buf : Str) (tops : List TopNode) (hs : List Str) : Str :=
  if hs.isEmpty then buf
  else buf.take (hoistOffset tops) ++ hoistText hs ++ buf.drop (hoistOffset tops)

/-- Last element of a list of numbers, with a default. -/
def lastD (l : List Nat) (d : Nat) : Nat :=
  match l with
  | [] => d
  | x :: xs => lastD xs x

/-- Hoist witness buffer. -/
def bufH : Str := str "#include <stdio.h>\nint f()\x7b return 0; \x7d"

/-- Hoist witness top-level constructs: one include line, one definition. -/
def topsH : List TopNode :=
  [⟨str "preproc_include", 0, 19⟩, ⟨str "function_definition", 19, 39⟩]

/-- Hoist witness submissions, in order. -/
def hsH : List Str := [str "A\n", str "B\n", str "C\n"]

/-! ## The phase loop

Modelled from the spec (§4.6): the engine is not under src/.  The driver
repeatedly scans the buffer for invocations of defined macros, expands all
of them (their return text is not rescanned within the phase), and stops at
a fixed point; a nested invocation emitted by a macro becomes visible at the
next scan.  This textual model records a macro table as name/body pairs
where a body maps the raw argument string to the return text. -/

/-- Identifier characters of the invocation lexeme. -/
def isIdentChar (c : Char) : Bool := c.isAlpha || c.isDigit || c = '_'

/-- Read the identifier after the sigil; returns the name and the rest. -/
def readName : Str → (Str × Str)
  | [] => ([], [])
  | c :: cs =>
      if isIdentChar c then
        let q := readName cs
        (c :: q.1, q.2)
      else ([], c :: cs)

/-- Read a balanced argument list after the opening parenthesis; returns
the raw argument text and the rest after the closing parenthesis. -/
def readArgs : Nat → Nat → Str → Option (Str × Str)
  | 0, _, _ => none
  | _ + 1, _, [] => none
  | fuel + 1, depth, c :: cs =>
      if c = ')' then
        if depth = 0 then some ([], cs)
        else (readArgs fuel (depth - 1) cs).map (fun q => (c :: q.1, q.2))
      else if c = '(' then (readArgs fuel (depth + 1) cs).map (fun q => (c :: q.1, q.2))
      else (readArgs fuel depth cs).map (fun q => (c :: q.1, q.2))

/-- Look a macro name up in the table. -/
def lookupTbl (tbl : List (Str × (Str → Str))) (name : Str) : Option (Str → Str) :=
  (tbl.find? (fun e => decide (e.1 = name))).map (fun e => e.2)

/-- Modelled from the spec (§4.6): one phase — every invocation of a
defined macro is replaced by its return text; returned text is not
rescanned within the phase. -/
def scanStep (tbl : List (Str × (Str → Str))) : Nat → Str → Str
  | 0, s => s
  | _ + 1, [] => []
  | fuel + 1, c :: cs =>
      if c = '@' then
        let q := readName cs
        if q.1.isEmpty then c :: scanStep tbl fuel cs
        else
          match lookupTbl tbl q.1 with
          | none => c :: scanStep tbl fuel cs
          | some f =>
              match q.2 with
              | '(' :: rest =>
                  match readArgs rest.length 0 rest with
                  | some (args, rest2) => f args ++ scanStep tbl fuel rest2
                  | none => f [] ++ scanStep tbl fuel q.2
              | _ => f [] ++ scanStep tbl fuel q.2
      else c :: scanStep tbl fuel cs

/-- Does the buffer contain a sigil token whose identifier resolves to a
defined macro? -/
def hasInvocation (tbl : List (Str × (Str → Str))) : Str → Bool
  | [] => false
  | c :: cs =>
      (decide (c = '@') &&
        (!(readName cs).1.isEmpty && (lookupTbl tbl (readName cs).1).isSome))
        || hasInvocation tbl cs

/-- Modelled from the spec (§4.6): the phase loop — run phases until no
invocation of a defined macro remains, or give up at the iteration cap. -/
def runPhases (tbl : List (Str × (Str → Str))) : Nat → Str → Option Str
  | 0, _ => none
  | fuel + 1, s =>
      if hasInvocation tbl s then runPhases tbl fuel (scanStep tbl (s.length + 1) s)
      else some s

/-- The nested-expansion macro table of spec §8.3: outer emits an inner
invocation. -/
def tblNested : List (Str × (Str → Str)) :=
  [(str "outer", fun x => str "@inner(10) + " ++ x),
   (str "inner", fun y => str "expanded_inner + " ++ y)]

/-- The nested-expansion input of spec §8.3. -/
def inNested : Str := str "int n = @outer(20);"

/-- The nested-expansion expected output of spec §8.3. -/
def outNested : Str := str "int n = expanded_inner + 10 + 20;"

end Upp

namespace Upp

/-- C3: when a macro consumes a node and returns non-empty text, the engine
applies exactly two range edits — the return text at the invocation range and
an empty replacement at the consumed range — and every byte outside those two
ranges is copied through unchanged, in either submission order. -/
theorem consume_return_exact_bytes (buf ret : Str) (i1 i2 c1 c2 : Nat)
    (h1 : i1 < i2) (h2 : i2 ≤ c1) (h3 : c1 < c2) :
    applyEdits buf [⟨i1, i2, ret, 0⟩, ⟨c1, c2, [], 1⟩]
        = .ok (buf.take i1 ++ ret ++ sub buf i2 c1 ++ buf.drop c2)
    ∧ applyEdits buf [⟨c1, c2, [], 0⟩, ⟨i1, i2, ret, 1⟩]
        = .ok (buf.take i1 ++ ret ++ sub buf i2 c1 ++ buf.drop c2) := by
  have h4 : ¬ c1 < i2 := Nat.not_lt.mpr h2
  have h5 : i1 < c1 := Nat.lt_of_lt_of_le h1 h2
  have h6 : i1 ≠ i2 := Nat.ne_of_lt h1
  have h7 : c1 ≠ c2 := Nat.ne_of_lt h3
  have h8 : ¬ c1 < i1 := Nat.not_lt.mpr (Nat.le_of_lt h5)
  constructor
  · simp [applyEdits, List.filter, h1, h3, h4, h6, h7, hasConflict, overlapB,
      sortEdits, insEdit, editLE, h5, applySorted, sub, List.take_append,
      List.append_assoc]
  · simp [applyEdits, List.filter, h1, h3, h4, h6, h7, hasConflict, overlapB,
      sortEdits, insEdit, editLE, h5, h8, Nat.ne_of_gt h5, applySorted, sub,
      List.take_append, List.append_assoc]

/-- Witness for C3 at a concrete buffer: invocation range [4,10) replaced by
the returned text, consumed range [11,17) deleted, all other bytes unchanged. -/
theorem consume_return_exact_bytes_witness :
    applyEdits (str "int @r(n) x = 1; tail") [⟨4, 10, str "RET ", 0⟩, ⟨11, 17, [], 1⟩]
        = .ok ((str "int @r(n) x = 1; tail").take 4 ++ str "RET " ++
            sub (str "int @r(n) x = 1; tail") 10 11 ++ (str "int @r(n) x = 1; tail").drop 17) :=
  (consume_return_exact_bytes (str "int @r(n) x = 1; tail") (str "RET ") 4 10 11 17
    (by decide) (by decide) (by decide)).1

/-- A list starts with itself followed by anything. -/
theorem isPrefixOf_append_self (a b : Str) : a.isPrefixOf (a ++ b) = true := by
  induction a with
  | nil => simp [List.isPrefixOf]
  | cons c cs ih => simp [List.isPrefixOf, ih]

/-- C2: on the spec §8.2 scoped-defer program (scenario B), the defer body
returns the empty string and submits exactly one insertion of the consumed
block text before each return statement that starts after the consumed
block; the output has the block immediately before both returns, the
invocation and the consumed block are gone.  On scenario C, whose scope ends
in a non-return statement, the block is additionally inserted before the
closing brace. -/
theorem defer_scenario_expansion :
    defer cstB bufB invB = .ok ⟨[⟨63, 63, str "\x7b free(s); \x7d ", 0⟩,
        ⟨75, 75, str "\x7b free(s); \x7d ", 0⟩],
        [⟨13, str "compound_statement", 41, 53, some 6, none, true⟩], []⟩
    ∧ runDefer cstB bufB invB = .ok outB
    ∧ containsSub outB (str "\x7b free(s); \x7d return 1;") = true
    ∧ containsSub outB (str "\x7b free(s); \x7d return 0;") = true
    ∧ containsSub outB (str "@defer") = false
    ∧ runDefer cstC bufC invC = .ok outC
    ∧ containsSub outC (str "h(); \x7b g(); \x7d \x7d") = true
    ∧ containsSub outC (str "@defer") = false :=
  ⟨rfl, rfl, by decide, by decide, by decide, rfl, by decide, by decide⟩

/-- C6: when the forbidden-flow scan of the enclosing scope finds a break
statement, the defer body raises exactly the diagnostic "@defer cannot be
used in a scope containing break", the invocation contributes no edits, and
the run exits non-zero. -/
theorem defer_break_diagnostic (cst : List Node) (buf : Str) (inv : Invocation)
    (block scope nb : Node)
    (hc : consumeWith cst inv deferOpts = .ok block)
    (hs : findEnclosing cst cst.length block (str "compound_statement") = some scope)
    (hf : (walkNodes cst scope).find? forbiddenB = some nb)
    (hbt : nb.ntype = str "break_statement") :
    defer cst buf inv = .error (str "@defer cannot be used in a scope containing break")
    ∧ invocationEdits (defer cst buf inv) = []
    ∧ exitCode (invocationDiags inv (defer cst buf inv)) = 1 := by
  have hd : defer cst buf inv
      = .error (str "@defer cannot be used in a scope containing break") := by
    simp only [defer, hc, hs, hf, hbt]
    rfl
  refine ⟨hd, ?_, ?_⟩
  · rw [hd]; rfl
  · rw [hd]; rfl

/-- Witness for C6 at scenario D: the loop body holding the invocation also
holds a break statement. -/
theorem defer_break_diagnostic_witness :
    defer cstD bufD invD = .error (str "@defer cannot be used in a scope containing break")
    ∧ invocationEdits (defer cstD bufD invD) = []
    ∧ exitCode (invocationDiags invD (defer cstD bufD invD)) = 1 :=
  defer_break_diagnostic cstD bufD invD
    ⟨11, str "compound_statement", 30, 38, some 10, none, true⟩
    ⟨10, str "compound_statement", 21, 47, some 7, some (str "body"), true⟩
    ⟨16, str "break_statement", 39, 45, some 10, none, true⟩
    rfl rfl rfl rfl

/-- C9: the forbidden-flow scan covers the whole enclosing compound
statement, so any break, continue or goto statement anywhere in that scope
— nested or lexically before the invocation — makes the defer body raise
the "@defer cannot be used in a scope containing ..." error. -/
theorem defer_flow_check_whole_scope (cst : List Node) (buf : Str) (inv : Invocation)
    (block scope n : Node)
    (hc : consumeWith cst inv deferOpts = .ok block)
    (hs : findEnclosing cst cst.length block (str "compound_statement") = some scope)
    (hn : n ∈ walkNodes cst scope) (ht : forbiddenB n = true) :
    ∃ m, defer cst buf inv = .error m ∧
      (str "@defer cannot be used in a scope containing ").isPrefixOf m = true := by
  have hsome : ((walkNodes cst scope).find? forbiddenB).isSome := by
    rw [List.find?_isSome]
    exact ⟨n, hn, ht⟩
  obtain ⟨nb, hfind⟩ := Option.isSome_iff_exists.mp hsome
  refine ⟨str "@defer cannot be used in a scope containing " ++
      removeFirstSub (str "_statement") nb.ntype, ?_, isPrefixOf_append_self _ _⟩
  simp only [defer, hc, hs, hfind]

/-- Witness for C9 at scenario E: the break sits inside a nested while loop
and lexically before the invocation, yet the defer body errors. -/
theorem defer_flow_check_whole_scope_witness :
    ∃ m, defer cstE bufE invE = .error m ∧
      (str "@defer cannot be used in a scope containing ").isPrefixOf m = true :=
  defer_flow_check_whole_scope cstE bufE invE
    ⟨12, str "compound_statement", 39, 47, some 6, none, true⟩
    ⟨6, str "compound_statement", 9, 49, some 1, some (str "body"), true⟩
    ⟨11, str "break_statement", 23, 29, some 10, none, true⟩
    rfl rfl (by decide) rfl

/-- C1: on the spec §8.1 method-dispatch program (scenario A), the method
body renames the defining identifier to _Point_method_dist, rewrites the
dot call with an address-taken object and the arrow call with the object
unchanged, and the final buffer carries the renamed definition and calls
with no @method token and no field-style call left; a leading "struct " is
stripped from the target type. -/
theorem method_scenario_expansion :
    runMethod cstA bufA (str "Point") ctxA invA = .ok outA
    ∧ (method cstA bufA (str "Point") ctxA).edits =
        [⟨46, 50, str "_Point_method_dist", 0⟩,
         ⟨116, 124, str "_Point_method_dist(&(p))", 0⟩,
         ⟨127, 137, str "_Point_method_dist(pp)", 0⟩]
    ∧ containsSub outA (str "int _Point_method_dist(Point *p)\x7b return p->x; \x7d") = true
    ∧ containsSub outA (str "return _Point_method_dist(&(p)) + _Point_method_dist(pp);") = true
    ∧ containsSub outA (str "@method") = false
    ∧ containsSub outA (str "p.dist") = false
    ∧ containsSub outA (str "pp->dist") = false
    ∧ cleanupTarget (str "struct Point") = str "Point" :=
  ⟨rfl, rfl, by decide, by decide, by decide, by decide, by decide, rfl⟩

/-- C10: when the object expression of a field-style call has no resolvable
definition, the method body falls back to rewriting by method name alone —
the call edit is submitted with no condition on the object's type. -/
theorem method_fallback_unresolved_object (cst : List Node) (buf : Str) (targetType : Str)
    (ctx funcIdentifier ref fnNode callNode objectNode argsNode opNode : Node)
    (hfi : methodFuncIdentifier cst ctx = some funcIdentifier)
    (href : ref ∈ findReferences cst buf funcIdentifier)
    (hne : ¬ ref = funcIdentifier)
    (hp : parentOf cst ref = some fnNode)
    (hft : fnNode.ntype = str "field_expression")
    (hpp : parentOf cst fnNode = some callNode)
    (hct : callNode.ntype = str "call_expression")
    (hobj : childForFieldName cst fnNode (str "argument") = some objectNode)
    (hargs : childForFieldName cst callNode (str "arguments") = some argsNode)
    (hop : childAt cst fnNode 1 = some opNode)
    (hdef : getDefinition cst buf objectNode = none) :
    (⟨callNode.nstart, callNode.nstop,
        methodCallText buf
          (methodNewName (cleanupTarget targetType) (nodeText buf funcIdentifier))
          objectNode argsNode opNode, 0⟩ : Edit)
      ∈ (method cst buf targetType ctx).edits := by
  have hmk : mkCallEdit cst buf (cleanupTarget targetType)
      (methodNewName (cleanupTarget targetType) (nodeText buf funcIdentifier))
      funcIdentifier ref
      = some ⟨callNode.nstart, callNode.nstop,
          methodCallText buf
            (methodNewName (cleanupTarget targetType) (nodeText buf funcIdentifier))
            objectNode argsNode opNode, 0⟩ := by
    simp only [mkCallEdit, if_neg hne, hp, hft, hpp, hct, hobj, hargs, hop, hdef]
    simp
  simp only [method, hfi]
  exact List.mem_cons_of_mem _ (List.mem_filterMap.mpr ⟨ref, href, hmk⟩)

/-- C5: when the next non-comment node after the invocation fails the type
or validate check of a consume call, the body fails with the
consume-type-mismatch diagnostic — the custom opts.message when one is
provided, the default consume-type-mismatch text otherwise — recorded at
the invocation site, contributes no edits, and the run exits non-zero. -/
theorem consume_mismatch_diagnostic (cst : List Node) (inv : Invocation)
    (o : ConsumeOpts) (n : Node)
    (hn : (nodesAfter cst inv).find? (fun x => !(x.ntype = str "comment")) = some n)
    (hmis : (o.ctypes.contains n.ntype && o.validate n) = false) :
    (∀ k, runConsumingInvocation cst inv o k = .error (o.message.getD defaultMismatch)
      ∧ invocationEdits (runConsumingInvocation cst inv o k) = []
      ∧ invocationDiags inv (runConsumingInvocation cst inv o k)
          = [(inv.istart, o.message.getD defaultMismatch)])
    ∧ exitCode [(inv.istart, o.message.getD defaultMismatch)] = 1 := by
  have hc : consumeWith cst inv o = .error (o.message.getD defaultMismatch) := by
    simp only [consumeWith, hn, hmis]
    simp
  refine ⟨fun k => ?_, rfl⟩
  have hr : runConsumingInvocation cst inv o k = .error (o.message.getD defaultMismatch) := by
    simp only [runConsumingInvocation, hc]
  exact ⟨hr, by rw [hr]; rfl, by rw [hr]; rfl⟩

/-- Witness for C5 at scenario G, in both message modes: with the plain
options of the defer body (no options object, as in the spec §8.4 scenario)
the expression statement after the invocation fails the compound-statement
type check and the default consume-type-mismatch diagnostic is reported;
with the test_validate options the node lacks the required text and the
custom message is reported; either way the run exits non-zero. -/
theorem consume_mismatch_diagnostic_witness :
    runConsumingInvocation cstG invG deferOpts (fun n => .ok ⟨[], [n], nodeText bufG n⟩)
      = .error (str "consume-type-mismatch")
    ∧ runConsumingInvocation cstG invG optsG (fun n => .ok ⟨[], [n], nodeText bufG n⟩)
      = .error (str "@test_validate requires an expression containing \"VALID\"")
    ∧ exitCode [(13, str "consume-type-mismatch")] = 1 := by
  obtain ⟨h1, h2⟩ := consume_mismatch_diagnostic cstG invG deferOpts
    ⟨7, str "expression_statement", 28, 34, some 6, none, true⟩ rfl (by decide)
  obtain ⟨h3, _⟩ := consume_mismatch_diagnostic cstG invG optsG
    ⟨7, str "expression_statement", 28, 34, some 6, none, true⟩ rfl (by decide)
  exact ⟨(h1 _).1, (h3 _).1, h2⟩

/-- A digit character decodes to its digit. -/
theorem digitVal_digitChar (d : Nat) (h : d < 10) : digitVal (digitChar d) = d := by
  interval_cases d <;> rfl

/-- Appending a digit multiplies the value by ten and adds the digit. -/
theorem listVal_append_digit (l : Str) (c : Char) :
    listVal (l ++ [c]) = 10 * listVal l + digitVal c := by
  simp [listVal, List.foldl_append]

/-- The digit string of a number decodes back to the number. -/
theorem listVal_natStrAux : ∀ fuel n, n < fuel → listVal (natStrAux fuel n) = n := by
  intro fuel
  induction fuel with
  | zero => intro n h; omega
  | succ f ih =>
      intro n h
      by_cases h10 : n < 10
      · simp [natStrAux, h10, listVal, digitVal_digitChar n h10]
      · have h0 : 0 < n := by omega
        have hlt : n / 10 < n := Nat.div_lt_self h0 (by omega)
        have hf : n / 10 < f := by omega
        have hm : n % 10 < 10 := Nat.mod_lt n (by omega)
        rw [natStrAux, if_neg h10, listVal_append_digit, ih (n / 10) hf,
          digitVal_digitChar (n % 10) hm]
        omega

/-- Decimal rendering round-trips through the digit value. -/
theorem listVal_natStr (n : Nat) : listVal (natStr n) = n :=
  listVal_natStrAux (n + 1) n (Nat.lt_succ_self n)

/-- Decimal rendering is injective. -/
theorem natStr_injective {a b : Nat} (h : natStr a = natStr b) : a = b := by
  have := listVal_natStr a
  rw [h, listVal_natStr b] at this
  omega

/-- Candidate names with the same prefix and different counters differ. -/
theorem candidate_inj (p : Str) {k1 k2 : Nat} (h : candidate p k1 = candidate p k2) :
    k1 = k2 := by
  unfold candidate at h
  exact natStr_injective (List.append_cancel_left h)

/-- The fresh-index search never goes below its starting counter. -/
theorem freshIndex_ge (avoid : List Str) (p : Str) :
    ∀ fuel k, k ≤ freshIndex avoid p fuel k := by
  intro fuel
  induction fuel with
  | zero => intro k; exact Nat.le_refl k
  | succ f ih =>
      intro k
      rw [freshIndex]
      by_cases hm : candidate p k ∈ avoid
      · rw [if_pos hm]
        exact Nat.le_trans (Nat.le_succ k) (ih (k + 1))
      · rw [if_neg hm]

/-- Erasing an avoided name that no remaining candidate can equal does not
change the search result. -/
theorem freshIndex_erase (p : Str) (c : Str) :
    ∀ fuel avoid k, (∀ j, k ≤ j → candidate p j ≠ c) →
      freshIndex (avoid.erase c) p fuel k = freshIndex avoid p fuel k := by
  intro fuel
  induction fuel with
  | zero => intro avoid k _; rfl
  | succ f ih =>
      intro avoid k hno
      have hne : candidate p k ≠ c := hno k (Nat.le_refl k)
      rw [freshIndex, freshIndex]
      by_cases hm : candidate p k ∈ avoid
      · rw [if_pos hm, if_pos ((List.mem_erase_of_ne hne).mpr hm)]
        exact ih avoid (k + 1) (fun j hj => hno j (Nat.le_trans (Nat.le_succ k) hj))
      · rw [if_neg hm, if_neg (fun hc => hm ((List.mem_erase_of_ne hne).mp hc))]

/-- With more fuel than avoided names, the search lands outside the avoid
list. -/
theorem freshIndex_not_mem (p : Str) :
    ∀ fuel avoid k, avoid.length < fuel →
      candidate p (freshIndex avoid p fuel k) ∉ avoid := by
  intro fuel
  induction fuel with
  | zero => intro avoid k h; omega
  | succ f ih =>
      intro avoid k h
      rw [freshIndex]
      by_cases hm : candidate p k ∈ avoid
      · rw [if_pos hm]
        have hno : ∀ j, k + 1 ≤ j → candidate p j ≠ candidate p k := by
          intro j hj he
          have := candidate_inj p he
          omega
        have herase : freshIndex (avoid.erase (candidate p k)) p f (k + 1)
            = freshIndex avoid p f (k + 1) :=
          freshIndex_erase p (candidate p k) f avoid (k + 1) hno
        have hlen : (avoid.erase (candidate p k)).length < f := by
          rw [List.length_erase_of_mem hm]
          have : 0 < avoid.length := List.length_pos.mpr (List.ne_nil_of_mem hm)
          omega
        have hnot := ih (avoid.erase (candidate p k)) (k + 1) hlen
        rw [herase] at hnot
        intro hmem
        have hge := freshIndex_ge avoid p f (k + 1)
        have hnec : candidate p (freshIndex avoid p f (k + 1)) ≠ candidate p k := by
          intro he
          have := candidate_inj p he
          omega
        exact hnot ((List.mem_erase_of_ne hnec).mpr hmem)
      · rw [if_neg hm]
        exact hm

/-- C7: createUniqueIdentifier returns the prefix followed by a suffix not
below the current counter, advances the counter strictly past it, records
the name as issued, and the name is neither among the source identifiers
nor among the names previously returned in the run. -/
theorem createUniqueIdentifier_fresh (src : List Str) (p : Str) (st : UidState) :
    ∃ k, st.counter ≤ k
      ∧ (createUniqueIdentifier src p st).1 = candidate p k
      ∧ (createUniqueIdentifier src p st).2.counter = k + 1
      ∧ (createUniqueIdentifier src p st).2.issued
          = (createUniqueIdentifier src p st).1 :: st.issued
      ∧ (createUniqueIdentifier src p st).1 ∉ src
      ∧ (createUniqueIdentifier src p st).1 ∉ st.issued := by
  have h := freshIndex_not_mem p ((src ++ st.issued).length + 1) (src ++ st.issued)
    st.counter (Nat.lt_succ_self _)
  rw [List.mem_append] at h
  push_neg at h
  exact ⟨freshIndex (src ++ st.issued) p ((src ++ st.issued).length + 1) st.counter,
    freshIndex_ge _ _ _ _, rfl, rfl, rfl, h.1, h.2⟩

/-- Witness for C7: with z_trap_0 already present in the source, the next
z_trap name skips to z_trap_1 and is fresh. -/
theorem createUniqueIdentifier_fresh_witness :
    (createUniqueIdentifier [str "z_trap_0"] (str "z_trap") ⟨0, []⟩).1 = str "z_trap_1"
    ∧ (createUniqueIdentifier [str "z_trap_0"] (str "z_trap") ⟨0, []⟩).1 ∉ [str "z_trap_0"] := by
  obtain ⟨k, _, _, _, _, h5, _⟩ :=
    createUniqueIdentifier_fresh [str "z_trap_0"] (str "z_trap") ⟨0, []⟩
  exact ⟨by decide, h5⟩

/-- Walking an all-preamble prefix carries the last preamble end into the
rest of the scan. -/
theorem hoistOffsetAux_pre :
    ∀ (pre rest : List TopNode) (acc : Nat), (∀ t ∈ pre, isPreamble t = true) →
      hoistOffsetAux (pre ++ rest) acc
        = hoistOffsetAux rest (lastD (pre.map TopNode.tstop) acc) := by
  intro pre
  induction pre with
  | nil => intro rest acc _; rfl
  | cons t ts ih =>
      intro rest acc hpre
      have ht : isPreamble t = true := hpre t (List.mem_cons_self t ts)
      rw [List.cons_append, hoistOffsetAux, if_pos ht,
        ih rest t.tstop (fun x hx => hpre x (List.mem_cons_of_mem t hx))]
      rfl

/-- The scan stops at the first non-preamble construct. -/
theorem hoistOffsetAux_stop (hd : TopNode) (tl : List TopNode) (acc : Nat)
    (h : isPreamble hd = false) : hoistOffsetAux (hd :: tl) acc = acc := by
  rw [hoistOffsetAux, if_neg]
  simp [h]

/-- The last element with default is the default or a member. -/
theorem lastD_mem_or : ∀ (l : List Nat) (d : Nat), lastD l d = d ∨ lastD l d ∈ l := by
  intro l
  induction l with
  | nil => intro d; exact Or.inl rfl
  | cons a t ih =>
      intro d
      rw [lastD]
      rcases ih a with h | h
      · exact Or.inr (by rw [h]; exact List.mem_cons_self a t)
      · exact Or.inr (List.mem_cons_of_mem a h)

/-- Under a nondecreasing list, every member is at most the last element. -/
theorem le_lastD : ∀ (l : List Nat), l.Pairwise (· ≤ ·) → ∀ d, ∀ x ∈ l, x ≤ lastD l d := by
  intro l
  induction l with
  | nil => intro _ d x hx; cases hx
  | cons a t ih =>
      intro hp d x hx
      have hrel : ∀ y ∈ t, a ≤ y := (List.pairwise_cons.mp hp).1
      have htail : t.Pairwise (· ≤ ·) := (List.pairwise_cons.mp hp).2
      rw [lastD]
      rcases List.mem_cons.mp hx with h | h
      · subst h
        rcases lastD_mem_or t x with h2 | h2
        · rw [h2]
        · exact hrel _ h2
      · exact ih htail a x h

/-- If the default and every member are bounded, so is the last element. -/
theorem lastD_le : ∀ (l : List Nat) (d B : Nat), d ≤ B → (∀ x ∈ l, x ≤ B) →
    lastD l d ≤ B := by
  intro l
  induction l with
  | nil => intro d B hd _; exact hd
  | cons a t ih =>
      intro d B _ h
      rw [lastD]
      exact ih a B (h a (List.mem_cons_self a t)) (fun x hx => h x (List.mem_cons_of_mem a hx))

/-- C8: the collected hoists are applied as one pure insertion of the
submission-order concatenation with a leading newline, at an offset not
below the end of every leading comment/preprocessor construct and not above
the start of the first other top-level construct. -/
theorem hoist_single_insertion_placement (buf : Str) (pre : List TopNode)
    (hd : TopNode) (tl : List TopNode) (hs : List Str)
    (hpre : ∀ t ∈ pre, isPreamble t = true)
    (hhd : isPreamble hd = false)
    (hmono : (pre.map TopNode.tstop).Pairwise (· ≤ ·))
    (hord : ∀ t ∈ pre, t.tstop ≤ hd.tstart)
    (hne : hs.isEmpty = false) :
    applyHoists buf (pre ++ hd :: tl) hs
      = buf.take (hoistOffset (pre ++ hd :: tl)) ++ str "\n" ++ cat hs ++
        buf.drop (hoistOffset (pre ++ hd :: tl))
    ∧ (∀ t ∈ pre, t.tstop ≤ hoistOffset (pre ++ hd :: tl))
    ∧ hoistOffset (pre ++ hd :: tl) ≤ hd.tstart := by
  have hoff : hoistOffset (pre ++ hd :: tl) = lastD (pre.map TopNode.tstop) 0 := by
    unfold hoistOffset
    rw [hoistOffsetAux_pre pre (hd :: tl) 0 hpre, hoistOffsetAux_stop hd tl _ hhd]
  refine ⟨?_, ?_, ?_⟩
  · rw [applyHoists, if_neg (by simp [hne])]
    simp [hoistText, List.append_assoc]
  · intro t ht
    rw [hoff]
    exact le_lastD _ hmono 0 t.tstop (List.mem_map_of_mem _ ht)
  · rw [hoff]
    refine lastD_le _ 0 hd.tstart (Nat.zero_le _) ?_
    intro x hx
    obtain ⟨t, ht, rfl⟩ := List.mem_map.mp hx
    exact hord t ht

/-- Witness for C8: three hoists after one include line land between the
include and the first definition, in submission order. -/
theorem hoist_single_insertion_placement_witness :
    applyHoists bufH topsH hsH
      = str "#include <stdio.h>\n\nA\nB\nC\nint f()\x7b return 0; \x7d"
    ∧ hoistOffset topsH ≤ 19 := by
  obtain ⟨h1, h2, h3⟩ := hoist_single_insertion_placement bufH
    [⟨str "preproc_include", 0, 19⟩] ⟨str "function_definition", 19, 39⟩ [] hsH
    (by decide) (by decide) (by simp) (by decide) (by decide)
  exact ⟨by decide, h3⟩

/-- C4: a phase-loop run that reaches its fixed point leaves no invocation
of a defined macro in the final buffer. -/
theorem phases_fixed_point_no_invocations (tbl : List (Str × (Str → Str)))
    (fuel : Nat) (s out : Str)
    (h : runPhases tbl fuel s = some out) :
    hasInvocation tbl out = false := by
  induction fuel generalizing s with
  | zero => simp [runPhases] at h
  | succ f ih =>
      rw [runPhases] at h
      cases hb : hasInvocation tbl s with
      | true =>
          rw [hb] at h
          simp at h
          exact ih _ h
      | false =>
          rw [hb] at h
          simp at h
          rw [← h]
          exact hb

/-- Witness for C4 on the spec §8.3 nested-expansion scenario: the run
converges in two expansion phases — the inner invocation emitted by the
outer macro is expanded only after re-scan, so two phases of fuel do not
suffice — and the final buffer has no remaining invocation. -/
theorem phases_fixed_point_no_invocations_witness :
    hasInvocation tblNested outNested = false
    ∧ runPhases tblNested 3 inNested = some outNested
    ∧ runPhases tblNested 2 inNested = none :=
  ⟨phases_fixed_point_no_invocations tblNested 3 inNested outNested (by rfl),
   by rfl, by rfl⟩

/-- Witness for C10 at scenario F: q has no definition, yet q.dist() is
rewritten to _Point_method_dist(&(q)). -/
theorem method_fallback_unresolved_object_witness :
    (⟨63, 71,
        methodCallText bufF
          (methodNewName (cleanupTarget (str "Point"))
            (nodeText bufF ⟨4, str "identifier", 19, 23, some 3, some (str "declarator"), true⟩))
          ⟨22, str "identifier", 63, 64, some 21, some (str "argument"), true⟩
          ⟨25, str "argument_list", 69, 71, some 20, some (str "arguments"), true⟩
          ⟨23, str ".", 64, 65, some 21, none, false⟩, 0⟩ : Edit)
      ∈ (method cstF bufF (str "Point") ctxF).edits :=
  method_fallback_unresolved_object cstF bufF (str "Point") ctxF
    ⟨4, str "identifier", 19, 23, some 3, some (str "declarator"), true⟩
    ⟨24, str "field_identifier", 65, 69, some 21, some (str "field"), true⟩
    ⟨21, str "field_expression", 63, 69, some 20, some (str "function"), true⟩
    ⟨20, str "call_expression", 63, 71, some 19, none, true⟩
    ⟨22, str "identifier", 63, 64, some 21, some (str "argument"), true⟩
    ⟨25, str "argument_list", 69, 71, some 20, some (str "arguments"), true⟩
    ⟨23, str ".", 64, 65, some 21, none, false⟩
    rfl (by decide) (by decide) rfl rfl rfl rfl rfl rfl rfl rfl

end Upp
